import Mathlib

/-!
Shallow embedding of `src/scripts/src/cowidev/vax/incremental/china.py`: the
China vaccination scraper (incremental listing walk, complete-bulletin
scrape, metadata pipeline, merge and export).  Browser pages are modelled by
the data the regexes extract from them; the third-party helpers used at the
call sites (`re`, `selenium`, `pandas`) are modelled by their documented
behaviour there.  Helpers of this repository that are not under `src/`
(`CountryVaxBase.load_datafile` / `export_datafile`, the `cowidev.utils`
cleaning functions) are modelled from the spec, as flagged in their doc
comments.
-/

set_option maxHeartbeats 1000000

namespace China

/-- Calendar dates as produced by the cleaning helpers: `clean_date` and
`extract_clean_date` return zero-padded ISO strings, whose Python string
comparison is the lexicographic order on `(year, month, day)`. -/
structure Date where
  year : Nat
  month : Nat
  day : Nat
deriving DecidableEq, Repr

/-- ISO-string comparison used by `read` (`data_["date"] <= last_update`):
lexicographic order on `(year, month, day)`. -/
def Date.le (a b : Date) : Prop :=
  a.year < b.year ∨ (a.year = b.year ∧
    (a.month < b.month ∨ (a.month = b.month ∧ a.day ≤ b.day)))

/-- Strict version of `Date.le`. -/
def Date.lt (a b : Date) : Prop :=
  a.year < b.year ∨ (a.year = b.year ∧
    (a.month < b.month ∨ (a.month = b.month ∧ a.day < b.day)))

instance (a b : Date) : Decidable (Date.le a b) := by
  unfold Date.le; infer_instance

instance (a b : Date) : Decidable (Date.lt a b) := by
  unfold Date.lt; infer_instance

/-- One row of the scraped dataframe.  Incremental rows carry only
`total_vaccinations`; the `location` and `vaccine` columns do not exist
until `pipeline` assigns them, which is modelled by `Option`. -/
structure Record where
  date : Date
  total_vaccinations : Option Int
  people_vaccinated : Option Int
  people_fully_vaccinated : Option Int
  total_boosters : Option Int
  location : Option String
  vaccine : Option String
  source_url : String
deriving DecidableEq, Repr

/-- Errors a run can raise.  `attributeError` is what
`re.search(...).group(...)` or `.groups()` raises when the pattern has no
match (`NoneType` has no such attribute); note it carries neither a field
name nor a URL.  `parseError` models the date-extraction helper
`extract_clean_date` failing (that helper is not under `src/` and is
modelled from the spec, which gives it a field name).  `valueError` models
`clean_date`/`strptime` rejecting an invalid calendar date.  `typeError` is
Python comparing a `str` date with the float `NaN` watermark of an empty
datafile. -/
inductive PyError where
  | attributeError
  | parseError (field : String)
  | valueError
  | typeError
deriving DecidableEq, Repr

/-- Observable resource and navigation events of a run: acquiring and
releasing the selenium driver (entry and exit of a `with get_driver(...)`
block) and fetching a bulletin page (`driver.get(url)` inside the parse
helpers; index-page loads are not recorded). -/
inductive Event where
  | acquire
  | release
  | fetch (url : String)
deriving DecidableEq, Repr

/-- An incremental bulletin page, modelled by what the two `regex` patterns
extract from its `xw_box` element text: the cleaned date (`none` when
`extract_clean_date` fails) and the cleaned dose count (`none` when the
`total_vaccinations` pattern has no match, in which case `.group(1)` raises
`AttributeError`). -/
structure IncrPage where
  url : String
  date : Option Date
  total : Option Int
deriving DecidableEq, Repr

/-- A complete-bulletin page, modelled by the captured groups of the four
`regex_complete` body patterns on its `xw_box` text: for `doses` the month,
day and the two magnitude numerals; for the other three metrics the two
magnitude numerals.  The decimal numeral strings are modelled by the
rationals they denote; `none` means the pattern has no match. -/
structure CompletePage where
  doses : Option (Nat × Nat × ℚ × ℚ)
  people : Option (ℚ × ℚ)
  fully : Option (ℚ × ℚ)
  boosters : Option (ℚ × ℚ)
deriving DecidableEq, Repr

/-- An anchor element of the complete-bulletin index page: its `href`
property and whether its text matches `regex_complete["title"]`. -/
structure LinkElem where
  href : String
  titleMatch : Bool
deriving DecidableEq, Repr

/-- The environment one run scrapes: the incremental listing (in the
source's order, one entry per `li>a` link, assumed newest first) and the
complete-bulletin index together with its pages. -/
structure Env where
  incrPages : List IncrPage
  completeIndex : List LinkElem
  completePage : String → CompletePage

/-- Fixed class attribute `China.location`. -/
def location : String := "China"

/-- Fixed vaccine string assigned by `pipe_vaccine`. -/
def vaccineList : String := "CanSino, Sinopharm/Beijing, Sinopharm/Wuhan, Sinovac, ZF2001"

/-- Fixed class attribute `China.num_links_complete`. -/
def num_links_complete : Nat := 3

/-- Fixed class attribute `China.timeout` (seconds). -/
def timeout : Nat := 30

/-- Model of `China._parse_data`: navigate to the page and build
`{date, total_vaccinations, source_url}`.  The dict literal evaluates the
date extraction first, then `clean_count(re.search(...).group(1))`. -/
def _parse_data (p : IncrPage) : Except PyError Record :=
  match p.date with
  | none => .error (.parseError "date")
  | some d =>
    match p.total with
    | none => .error .attributeError
    | some t =>
      .ok { date := d, total_vaccinations := some t,
            people_vaccinated := none, people_fully_vaccinated := none,
            total_boosters := none, location := none, vaccine := none,
            source_url := p.url }

/-- The record `_parse_data` produces from a page whose two patterns both
match; used to state what `read` returns. -/
def pageRecord (p : IncrPage) : Record :=
  { date := p.date.getD ⟨0, 0, 0⟩, total_vaccinations := p.total,
    people_vaccinated := none, people_fully_vaccinated := none,
    total_boosters := none, location := none, vaccine := none,
    source_url := p.url }

/-- Body of the loop in `China.read`, also recording the record pages
fetched: parse each listed page in order and stop — discarding the record
just parsed — once its date is `<= last_update`.  A parse failure aborts the
whole walk; comparing against the `NaN` watermark of an empty datafile is a
`TypeError`. -/
def readAux (wm : Option Date) : List IncrPage → List Event × Except PyError (List Record)
  | [] => ([], .ok [])
  | p :: ps =>
    match _parse_data p with
    | .error e => ([Event.fetch p.url], .error e)
    | .ok r =>
      match wm with
      | none => ([Event.fetch p.url], .error .typeError)
      | some w =>
        if Date.le r.date w then ([Event.fetch p.url], .ok [])
        else
          let rest := readAux wm ps
          (Event.fetch p.url :: rest.1, Except.map (fun l => r :: l) rest.2)

/-- Model of `China.read(last_update)`: walk the listing inside a
`with get_driver(...)` block, so the driver is acquired once and released on
every exit path, error or not. -/
def read (wm : Option Date) (pages : List IncrPage) : List Event × Except PyError (List Record) :=
  let r := readAux wm pages
  (Event.acquire :: r.1 ++ [Event.release], r.2)

/-- Python `int()` applied to a rational value: truncation toward zero. -/
def pyInt (q : ℚ) : ℤ := if 0 ≤ q then ⌊q⌋ else ⌈q⌉

/-- Model of `_estimate_metric(position_1, position_2)` inside
`China._parse_data_complete`: `int(float(position_1) * 1e8 +
float(position_2) * 1e4)`, with the decimal numeral strings modelled by the
rationals they denote. -/
def _estimate_metric (position_1 position_2 : ℚ) : ℤ :=
  pyInt (position_1 * 100000000 + position_2 * 10000)

/-- Day counts of the (non-leap) year 2022, used when
`datetime.strptime` validates `f"2022-{month}-{day}"`. -/
def daysInMonth2022 (m : Nat) : Nat :=
  if m = 2 then 28
  else if m = 4 ∨ m = 6 ∨ m = 9 ∨ m = 11 then 30
  else 31

/-- Validity of a month/day pair in the hard-coded year 2022, as checked by
`clean_date(f"2022-{month}-{day}", "%Y-%m-%d")`. -/
def validMonthDay (m d : Nat) : Prop :=
  1 ≤ m ∧ m ≤ 12 ∧ 1 ≤ d ∧ d ≤ daysInMonth2022 m

instance (m d : Nat) : Decidable (validMonthDay m d) := by
  unfold validMonthDay; infer_instance

/-- Model of `China._parse_data_complete`: apply the four `regex_complete`
body patterns in order (`doses`, `people`, `fully`, `boosters`); a pattern
with no match makes `.groups()` raise `AttributeError`.  The record's date
is `clean_date(f"2022-{month}-{day}", "%Y-%m-%d")`: the year is the constant
2022, only month and day come from the page text. -/
def _parse_data_complete (page : CompletePage) (url : String) : Except PyError Record :=
  match page.doses with
  | none => .error .attributeError
  | some (month, day, tv1, tv2) =>
    match page.people with
    | none => .error .attributeError
    | some (pv1, pv2) =>
      match page.fully with
      | none => .error .attributeError
      | some (pf1, pf2) =>
        match page.boosters with
        | none => .error .attributeError
        | some (tb1, tb2) =>
          if validMonthDay month day then
            .ok { date := ⟨2022, month, day⟩,
                  total_vaccinations := some (_estimate_metric tv1 tv2),
                  people_vaccinated := some (_estimate_metric pv1 pv2),
                  people_fully_vaccinated := some (_estimate_metric pf1 pf2),
                  total_boosters := some (_estimate_metric tb1 tb2),
                  location := none, vaccine := none, source_url := url }
          else .error .valueError

/-- Model of `China._get_links_complete`: the `href` properties of the index
anchors whose text matches the comprehensive-report title pattern. -/
def _get_links_complete (elems : List LinkElem) : List String :=
  (elems.filter (fun e => e.titleMatch)).map (fun e => e.href)

/-- Body of the loop in `China.read_complete`, also recording the pages
fetched: parse each of the given links in order; a parse failure aborts the
walk. -/
def readCompleteAux (pageAt : String → CompletePage) :
    List String → List Event × Except PyError (List Record)
  | [] => ([], .ok [])
  | l :: ls =>
    match _parse_data_complete (pageAt l) l with
    | .error e => ([Event.fetch l], .error e)
    | .ok r =>
      let rest := readCompleteAux pageAt ls
      (Event.fetch l :: rest.1, Except.map (fun recs => r :: recs) rest.2)

/-- Model of `China.read_complete()`: parse the first `num_links_complete`
title-matching links — no watermark is consulted — inside its own
`with get_driver(...)` block. -/
def read_complete (env : Env) : List Event × Except PyError (List Record) :=
  let links := _get_links_complete env.completeIndex
  let r := readCompleteAux env.completePage (links.take num_links_complete)
  (Event.acquire :: r.1 ++ [Event.release], r.2)

/-- Model of `pipe_metadata`: `df.assign(location=self.location)`. -/
def pipe_metadata (df : List Record) : List Record :=
  df.map (fun r => { r with location := some China.location })

/-- Model of `pipe_vaccine`: `df.assign(vaccine="CanSino, ...")`. -/
def pipe_vaccine (df : List Record) : List Record :=
  df.map (fun r => { r with vaccine := some vaccineList })

/-- Model of `pipeline`: metadata then vaccine. -/
def pipeline (df : List Record) : List Record :=
  pipe_vaccine (pipe_metadata df)

/-- The merge step of `China.export` (lines 116-120): if the incremental
frame is empty take the complete frame, otherwise keep the complete records
plus the incremental records whose date is not among the complete dates
(`msk = ~df.date.isin(df_complete.date); pd.concat([df_complete, df.loc[msk]])`). -/
def merge (df df_complete : List Record) : List Record :=
  if df.isEmpty then df_complete
  else df_complete ++ df.filter (fun r => !(df_complete.any (fun c => decide (c.date = r.date))))

/-- Modelled from the spec: `CountryVaxBase.export_datafile(df, attach=True)`
is not under `src/`.  Per the spec (section 6 with the policy of section
4.4) it merges the new records with the store's existing contents as
`priorDataset`: new records win, and a prior record is kept only when no
new record carries its date. -/
def attach (new prior : List Record) : List Record :=
  new ++ prior.filter (fun p => !(new.any (fun r => decide (r.date = p.date))))

/-- The spec's `reconcile(I, C, P)`: the in-`src` merge of the two scraped
streams followed by the attach against the prior dataset. -/
def reconcile (I C P : List Record) : List Record :=
  attach (merge I C) P

/-- Modelled from the spec: `load_datafile().date.max()` is not under
`src/`; it is the maximum date on file (`none` on an empty file, where
pandas yields `NaN`). -/
def maxDate (l : List Record) : Option Date :=
  l.foldr (fun r acc =>
    match acc with
    | none => some r.date
    | some d => some (if Date.le r.date d then d else r.date)) none

/-- Model of `China.export` (named `exportRun`; `export` is a Lean keyword):
read the watermark from the datafile, run `read` bounded by it and
`read_complete` unconditionally, pipeline each non-empty frame, merge them,
and attach the result to the datafile.  Any error aborts before the attach;
the two scraper calls each open their own driver session. -/
def exportRun (env : Env) (prior : List Record) : List Event × Except PyError (List Record) :=
  let r1 := read (maxDate prior) env.incrPages
  match r1.2 with
  | .error e => (r1.1, .error e)
  | .ok df0 =>
    let r2 := read_complete env
    match r2.2 with
    | .error e => (r1.1 ++ r2.1, .error e)
    | .ok dfc0 =>
      let df := if df0.isEmpty then df0 else pipeline df0
      let dfc := if dfc0.isEmpty then dfc0 else pipeline dfc0
      (r1.1 ++ r2.1, .ok (attach (merge df dfc) prior))

/-- The datafile after a run of `export`: replaced by the attached merge on
success and untouched when any error aborted the run (the write is the last
statement of `export`). -/
def exportStore (env : Env) (prior : List Record) : List Record :=
  match (exportRun env prior).2 with
  | .ok d => d
  | .error _ => prior

/-- Number of `acquire` events in a trace. -/
def countAcq (tr : List Event) : Nat := tr.countP (fun e => decide (e = Event.acquire))

/-- Number of `release` events in a trace. -/
def countRel (tr : List Event) : Nat := tr.countP (fun e => decide (e = Event.release))

/-- Sample incremental record (the end-to-end scenario of the spec). -/
def iRec : Record := ⟨⟨2022, 1, 3⟩, some 130, none, none, none, none, none, "i"⟩

/-- Sample complete record for the same scenario. -/
def cRec : Record := ⟨⟨2022, 1, 1⟩, some 110, some 90, some 80, some 5, none, none, "c"⟩

/-- Sample prior-dataset record for the same scenario. -/
def pRec : Record := ⟨⟨2022, 1, 1⟩, some 100, none, none, none, some "China", some "x", "p"⟩

/-- Two complete records sharing one date. -/
def cDupA : Record := ⟨⟨2022, 3, 1⟩, some 1, none, none, none, none, none, "a"⟩

/-- Second complete record with the same date as `cDupA`. -/
def cDupB : Record := ⟨⟨2022, 3, 1⟩, some 2, none, none, none, none, none, "b"⟩

/-- A sample listing of three incremental pages with strictly decreasing
dates. -/
def sampleIncrPages : List IncrPage :=
  [⟨"u1", some ⟨2022, 1, 3⟩, some 30⟩, ⟨"u2", some ⟨2022, 1, 2⟩, some 20⟩,
   ⟨"u3", some ⟨2022, 1, 1⟩, some 10⟩]

/-- The dates of `sampleIncrPages`. -/
def sampleDates : List Date := [⟨2022, 1, 3⟩, ⟨2022, 1, 2⟩, ⟨2022, 1, 1⟩]

/-- A complete-bulletin page on which all four patterns match. -/
def goodPage : CompletePage := ⟨some (3, 1, 3, 1500), some (2, 100), some (1, 50), some (0, 300)⟩

/-- The record `_parse_data_complete` extracts from `goodPage` at URL
`"cu"`. -/
def goodRec : Record :=
  ⟨⟨2022, 3, 1⟩, some 315000000, some 201000000, some 100500000, some 3000000, none, none, "cu"⟩

/-- A complete-bulletin page whose `doses` pattern has no match. -/
def pageMissingDoses : CompletePage := ⟨none, some (1, 1), some (1, 1), some (1, 1)⟩

/-- A complete-bulletin page whose `people` pattern has no match. -/
def pageMissingPeople : CompletePage := ⟨some (3, 1, 1, 1500), none, some (1, 1), some (1, 1)⟩

/-- An environment whose only complete bulletin is missing every numeral
group. -/
def envBad : Env := ⟨[], [⟨"c1", true⟩], fun _ => ⟨none, none, none, none⟩⟩

/-- An environment on which a run of `export` succeeds. -/
def envOK : Env := ⟨[], [⟨"cu", true⟩], fun _ => goodPage⟩

theorem dateLe_refl (d : Date) : Date.le d d := Or.inr ⟨rfl, Or.inr ⟨rfl, Nat.le_refl _⟩⟩

theorem dateLt_not_le {a b : Date} (h : Date.lt a b) : ¬ Date.le b a := by
  unfold Date.lt at h; unfold Date.le; omega

theorem filter_self_dates (new : List Record) :
    new.filter (fun p => !(new.any (fun r => decide (r.date = p.date)))) = [] := by
  rw [List.filter_eq_nil_iff]
  intro a ha h
  have hall : new.any (fun r => decide (r.date = a.date)) = true :=
    List.any_eq_true.mpr ⟨a, ha, by simp⟩
  rw [hall] at h
  simp at h

theorem parse_goodPage : _parse_data_complete goodPage "cu" = .ok goodRec := by
  norm_num [_parse_data_complete, goodPage, goodRec, _estimate_metric, pyInt,
    validMonthDay, daysInMonth2022]

/-- C4: reconciliation is idempotent: `reconcile(I, C, reconcile(I, C, P)) =
reconcile(I, C, P)` for all `I, C, P`, and re-running with the previous
output as prior dataset and empty new streams returns it unchanged. -/
theorem claim4_reconcile_idempotent :
    (∀ I C P : List Record, reconcile I C (reconcile I C P) = reconcile I C P) ∧
    (∀ R : List Record, reconcile [] [] R = R) := by
  constructor
  · intro I C P
    show attach (merge I C) (attach (merge I C) P) = attach (merge I C) P
    unfold attach
    rw [List.filter_append, filter_self_dates, List.nil_append, List.filter_filter]
    simp only [Bool.and_self]
  · intro R
    simp [reconcile, attach, merge]

/-- C5: if any error is raised during extraction or reconciliation, the
persisted prior dataset is left unmodified — the merged result is fully
computed in memory before the single write at the end of `export`. -/
theorem claim5_no_partial_write (env : Env) (prior : List Record) (e : PyError)
    (h : (exportRun env prior).2 = .error e) :
    exportStore env prior = prior := by
  unfold exportStore
  rw [h]

/-- Witness for C5: a complete bulletin missing its numeral groups makes
the run abort with the untyped attribute error and the datafile keeps its
previous contents. -/
theorem claim5_witness : exportStore envBad [pRec] = [pRec] :=
  claim5_no_partial_write envBad [pRec] .attributeError rfl

/-- C6 counterexample: parse failures from two different missing numeral
groups, at two different URLs, raise the very same error value
(`AttributeError`), so the raised error carries neither the offending field
name nor the source URL — refuting the claim that failures are typed
`ParseError`s carrying both. -/
theorem claim6_counterexample :
    _parse_data_complete pageMissingDoses "u1" = .error .attributeError ∧
    _parse_data_complete pageMissingPeople "u2" = .error .attributeError ∧
    _parse_data_complete pageMissingDoses "u1" = _parse_data_complete pageMissingPeople "u2" :=
  ⟨rfl, rfl, rfl⟩

/-- C6 amended: a missing numeral group in a complete bulletin is a
synchronous error — never treated as zero, never swallowed — but it is the
untyped `AttributeError` raised through `re`, carrying neither the
offending field name nor the source URL. -/
theorem claim6_amended (page : CompletePage) (url : String)
    (h : page.doses = none ∨ page.people = none ∨ page.fully = none ∨ page.boosters = none) :
    _parse_data_complete page url = .error .attributeError := by
  unfold _parse_data_complete
  rcases hds : page.doses with _ | ⟨m, d, t1, t2⟩
  · rfl
  rcases hp : page.people with _ | ⟨a1, a2⟩
  · rfl
  rcases hf : page.fully with _ | ⟨b1, b2⟩
  · rfl
  rcases hb : page.boosters with _ | ⟨c1, c2⟩
  · rfl
  simp_all

/-- Witness for C6 amended: a page with no matching group parses to the
attribute error. -/
theorem claim6_witness :
    _parse_data_complete ⟨none, none, none, none⟩ "u" = .error .attributeError :=
  claim6_amended ⟨none, none, none, none⟩ "u" (Or.inl rfl)

/-- C3 counterexample: `_estimate_metric` truncates (`int()`), it does not
round: on the group values `0` and `9/100000` the scaled sum is `9/10`,
which `int()` truncates to `0` while `round` gives `1`. -/
theorem claim3_counterexample :
    _estimate_metric 0 (9 / 100000) ≠ round ((0 : ℚ) * 100000000 + (9 / 100000) * 10000) := by
  norm_num [_estimate_metric, pyInt, round_eq]

/-- C3 amended: for nonnegative group values, `_estimate_metric` returns the
floor (Python `int()` truncation) of `big * 1e8 + small * 1e4`, not its
rounding; the claimed instance `combineMagnitudes(3, 1e8, 1500, 1e4) =
315000000` does hold. -/
theorem claim3_amended :
    (∀ p1 p2 : ℚ, 0 ≤ p1 → 0 ≤ p2 →
      _estimate_metric p1 p2 = ⌊p1 * 100000000 + p2 * 10000⌋) ∧
    _estimate_metric 3 1500 = 315000000 := by
  constructor
  · intro p1 p2 h1 h2
    unfold _estimate_metric pyInt
    rw [if_pos]
    exact add_nonneg (mul_nonneg h1 (by norm_num)) (mul_nonneg h2 (by norm_num))
  · norm_num [_estimate_metric, pyInt]

/-- Witness for C3 amended at the group values `2` and `5`. -/
theorem claim3_witness :
    _estimate_metric 2 5 = ⌊(2 : ℚ) * 100000000 + 5 * 10000⌋ :=
  claim3_amended.1 2 5 (by norm_num) (by norm_num)

/-- C9: the metadata pipeline stamps every record with the fixed location
and vaccine strings and leaves every other field (date, the four counts,
source URL) unchanged. -/
theorem claim9_pipeline (df : List Record) (_hne : df ≠ []) (i : Nat) (r : Record)
    (h : df[i]? = some r) :
    ∃ rp, (pipeline df)[i]? = some rp ∧
      rp.location = some China.location ∧ rp.vaccine = some vaccineList ∧
      rp.date = r.date ∧ rp.total_vaccinations = r.total_vaccinations ∧
      rp.people_vaccinated = r.people_vaccinated ∧
      rp.people_fully_vaccinated = r.people_fully_vaccinated ∧
      rp.total_boosters = r.total_boosters ∧ rp.source_url = r.source_url := by
  refine ⟨{ r with location := some China.location, vaccine := some vaccineList },
    ?_, rfl, rfl, rfl, rfl, rfl, rfl, rfl, rfl⟩
  simp [pipeline, pipe_vaccine, pipe_metadata, List.getElem?_map, h]

/-- Witness for C9 on the one-record stream `[pRec]`. -/
theorem claim9_witness :
    ∃ rp, (pipeline [pRec])[0]? = some rp ∧
      rp.location = some China.location ∧ rp.vaccine = some vaccineList ∧
      rp.date = pRec.date ∧ rp.total_vaccinations = pRec.total_vaccinations ∧
      rp.people_vaccinated = pRec.people_vaccinated ∧
      rp.people_fully_vaccinated = pRec.people_fully_vaccinated ∧
      rp.total_boosters = pRec.total_boosters ∧ rp.source_url = pRec.source_url :=
  claim9_pipeline [pRec] (by simp) 0 pRec rfl

/-- C10: every successfully parsed complete bulletin gets year 2022 in its
date, regardless of the page text: the year is hard-coded in
`f"2022-{month}-{day}"` and only month and day come from the page. -/
theorem claim10_year2022 (page : CompletePage) (url : String) (r : Record)
    (h : _parse_data_complete page url = .ok r) : r.date.year = 2022 := by
  unfold _parse_data_complete at h
  repeat' split at h
  all_goals first
    | (cases h; rfl)
    | cases h

/-- Witness for C10: the record parsed from `goodPage` carries year 2022. -/
theorem claim10_witness : goodRec.date.year = 2022 :=
  claim10_year2022 goodPage "cu" goodRec parse_goodPage

theorem merge_eq (I C : List Record) :
    merge I C = C ++ I.filter (fun r => !(C.any (fun c => decide (c.date = r.date)))) := by
  unfold merge
  cases I with
  | nil => simp
  | cons p ps => rfl

theorem mem_filter_not_any {X Y : List Record} {p : Record}
    (h : p ∈ Y.filter (fun q => !(X.any (fun r => decide (r.date = q.date))))) :
    p ∈ Y ∧ ∀ r ∈ X, r.date ≠ p.date := by
  rcases List.mem_filter.mp h with ⟨hY, hpred⟩
  refine ⟨hY, ?_⟩
  intro r hr hdate
  have hall : X.any (fun r => decide (r.date = p.date)) = true :=
    List.any_eq_true.mpr ⟨r, hr, by simp [hdate]⟩
  rw [hall] at hpred
  simp at hpred

/-- C1 counterexample: the merge never deduplicates inside a stream, so a
complete stream carrying two records with the same date yields a reconciled
result with two records for that date — refuting "at most one record per
(location, date)" and "exactly the complete record for that date". -/
theorem claim1_counterexample :
    ¬ ((reconcile [] [cDupA, cDupB] []).map (fun r => r.date)).Nodup := by decide

/-- C1 amended: provided each of the three streams carries at most one
record per date, the reconciled result restricted to any date of the
complete stream is exactly the complete record for that date (never a
blend), every result record comes from the complete stream, from the
incremental stream with a date outside the complete dates, or from the
prior dataset, and the result has at most one record per date. -/
theorem claim1_amended (I C P : List Record)
    (hI : (I.map (fun r => r.date)).Nodup)
    (hC : (C.map (fun r => r.date)).Nodup)
    (hP : (P.map (fun r => r.date)).Nodup) :
    (∀ d, d ∈ C.map (fun r => r.date) →
      (reconcile I C P).filter (fun r => decide (r.date = d))
        = C.filter (fun r => decide (r.date = d))) ∧
    (∀ r, r ∈ reconcile I C P →
      r ∈ C ∨ (r ∈ I ∧ r.date ∉ C.map (fun q => q.date)) ∨ r ∈ P) ∧
    ((reconcile I C P).map (fun r => r.date)).Nodup := by
  have hrec : reconcile I C P
      = (C ++ I.filter (fun r => !(C.any (fun c => decide (c.date = r.date)))))
        ++ P.filter (fun p =>
            !((C ++ I.filter (fun r => !(C.any (fun c => decide (c.date = r.date))))).any
              (fun r => decide (r.date = p.date)))) := by
    unfold reconcile attach
    rw [merge_eq]
  rw [hrec]
  refine ⟨?_, ?_, ?_⟩
  · intro d hd
    rcases List.mem_map.mp hd with ⟨c, hcC, hcd⟩
    rw [List.filter_append, List.filter_append]
    have h1 : (I.filter (fun r => !(C.any (fun c => decide (c.date = r.date))))).filter
        (fun r => decide (r.date = d)) = [] := by
      rw [List.filter_eq_nil_iff]
      intro a ha hq
      rcases mem_filter_not_any ha with ⟨haI, hfa⟩
      have had : a.date = d := by simpa using hq
      exact hfa c hcC (hcd.trans had.symm)
    have h2 : (P.filter (fun p =>
        !((C ++ I.filter (fun r => !(C.any (fun c => decide (c.date = r.date))))).any
          (fun r => decide (r.date = p.date))))).filter
        (fun r => decide (r.date = d)) = [] := by
      rw [List.filter_eq_nil_iff]
      intro a ha hq
      rcases mem_filter_not_any ha with ⟨haP, hfa⟩
      have had : a.date = d := by simpa using hq
      exact hfa c (List.mem_append_left _ hcC) (hcd.trans had.symm)
    rw [h1, h2, List.append_nil, List.append_nil]
  · intro r hr
    rcases List.mem_append.mp hr with hr1 | hr2
    · rcases List.mem_append.mp hr1 with hrC | hrI
      · exact Or.inl hrC
      · rcases mem_filter_not_any hrI with ⟨hrI2, hfa⟩
        refine Or.inr (Or.inl ⟨hrI2, ?_⟩)
        intro hmem
        rcases List.mem_map.mp hmem with ⟨c, hcC, hcd⟩
        exact hfa c hcC hcd
    · rcases mem_filter_not_any hr2 with ⟨hrP, _⟩
      exact Or.inr (Or.inr hrP)
  · rw [List.map_append, List.map_append, List.nodup_append]
    refine ⟨?_, ?_, ?_⟩
    · rw [List.nodup_append]
      refine ⟨hC, hI.sublist ((List.filter_sublist I).map _), ?_⟩
      intro d hdC hdI
      rcases List.mem_map.mp hdI with ⟨a, haI, had⟩
      rcases mem_filter_not_any haI with ⟨haI2, hfa⟩
      rcases List.mem_map.mp hdC with ⟨c, hcC, hcd⟩
      exact hfa c hcC (hcd.trans had.symm)
    · exact hP.sublist ((List.filter_sublist P).map _)
    · intro d hdE hdP
      rcases List.mem_map.mp hdP with ⟨a, haP, had⟩
      rcases mem_filter_not_any haP with ⟨haP2, hfa⟩
      rw [← List.map_append] at hdE
      rcases List.mem_map.mp hdE with ⟨e, heE, hed⟩
      exact hfa e heE (hed.trans had.symm)

/-- Witness for C1 amended: the spec's end-to-end scenario — the complete
record for 2022-01-01 replaces both the prior record and any blend, the
incremental 2022-01-03 record is kept, and no date is duplicated. -/
theorem claim1_witness :
    ((reconcile [iRec] [cRec] [pRec]).filter (fun r => decide (r.date = Date.mk 2022 1 1))
      = [cRec].filter (fun r => decide (r.date = Date.mk 2022 1 1))) ∧
    ((reconcile [iRec] [cRec] [pRec]).map (fun r => r.date)).Nodup := by
  have h := claim1_amended [iRec] [cRec] [pRec] (by decide) (by decide) (by decide)
  exact ⟨h.1 ⟨2022, 1, 1⟩ (by decide), h.2.2⟩

theorem _parse_data_ok (p : IncrPage) (d : Date) (t : Int)
    (hd : p.date = some d) (ht : p.total = some t) :
    _parse_data p = .ok (pageRecord p) := by
  simp [_parse_data, pageRecord, hd, ht]

theorem readAux_cons (wm : Date) (p : IncrPage) (ps : List IncrPage) (d : Date) (t : Int)
    (hd : p.date = some d) (ht : p.total = some t) :
    readAux (some wm) (p :: ps)
      = if Date.le d wm then ([Event.fetch p.url], .ok [])
        else (Event.fetch p.url :: (readAux (some wm) ps).1,
              Except.map (fun l => pageRecord p :: l) (readAux (some wm) ps).2) := by
  simp only [readAux, _parse_data_ok p d t hd ht, pageRecord, hd, Option.getD_some]

theorem readAux_spec : ∀ (k : Nat) (pages : List IncrPage) (ds : List Date),
    pages.map (fun p => p.date) = ds.map some →
    (∀ p ∈ pages, p.total ≠ none) →
    ds.Pairwise (fun a b => Date.lt b a) →
    ∀ (hk : k < ds.length),
    readAux (some (ds.get ⟨k, hk⟩)) pages
      = ((pages.take (k + 1)).map (fun p => Event.fetch p.url),
         .ok ((pages.take k).map pageRecord)) := by
  intro k
  induction k with
  | zero =>
    intro pages ds hdates htot hdec hk
    cases ds with
    | nil => simp at hk
    | cons d ds2 =>
      cases pages with
      | nil => simp at hdates
      | cons p ps =>
        simp only [List.map_cons] at hdates
        injection hdates with h1 h2
        cases hpt : p.total with
        | none => exact absurd hpt (htot p (by simp))
        | some t =>
          have hget : (d :: ds2).get ⟨0, hk⟩ = d := rfl
          rw [hget, readAux_cons d p ps d t h1 hpt, if_pos (dateLe_refl d)]
          simp
  | succ k ih =>
    intro pages ds hdates htot hdec hk
    cases ds with
    | nil => simp at hk
    | cons d ds2 =>
      cases pages with
      | nil => simp at hdates
      | cons p ps =>
        simp only [List.map_cons] at hdates
        injection hdates with h1 h2
        cases hpt : p.total with
        | none => exact absurd hpt (htot p (by simp))
        | some t =>
          have hk2 : k < ds2.length := by
            simp only [List.length_cons] at hk
            omega
          have hget : (d :: ds2).get ⟨k + 1, hk⟩ = ds2.get ⟨k, hk2⟩ := rfl
          rw [hget, readAux_cons (ds2.get ⟨k, hk2⟩) p ps d t h1 hpt, if_neg]
          · rw [ih ps ds2 h2 (fun q hq => htot q (List.mem_cons_of_mem _ hq))
              (List.pairwise_cons.mp hdec).2 hk2]
            simp [Except.map]
          · exact dateLt_not_le
              ((List.pairwise_cons.mp hdec).1 _ (List.get_mem ds2 k hk2))

/-- C2 counterexample: with the listing `sampleIncrPages` (dates 01-03 >
01-02 > 01-01) and watermark 2022-01-02, `read` does return exactly the one
newer record, but it fetches and parses the watermark page `"u2"` before
stopping — refuting "the page whose date is `<= watermark` is not fetched
or parsed". -/
theorem claim2_counterexample :
    (read (some ⟨2022, 1, 2⟩) sampleIncrPages).2
      = .ok [⟨⟨2022, 1, 3⟩, some 30, none, none, none, none, none, "u1"⟩] ∧
    Event.fetch "u2" ∈ (read (some ⟨2022, 1, 2⟩) sampleIncrPages).1 := by
  exact ⟨rfl, by decide⟩

/-- C2 amended: for a fully parseable listing with strictly decreasing dates
`d_0 > d_1 > ...` and watermark `d_k`, `read` returns exactly the records of
the first `k` pages in listing order; the walk fetches and parses the pages
up to and including the watermark page (whose record it discards) and
fetches nothing beyond it. -/
theorem claim2_amended (pages : List IncrPage) (ds : List Date) (k : Nat)
    (hdates : pages.map (fun p => p.date) = ds.map some)
    (htot : ∀ p ∈ pages, p.total ≠ none)
    (hdec : ds.Pairwise (fun a b => Date.lt b a))
    (hk : k < ds.length) :
    read (some (ds.get ⟨k, hk⟩)) pages
      = (Event.acquire :: ((pages.take (k + 1)).map (fun p => Event.fetch p.url))
          ++ [Event.release],
         .ok ((pages.take k).map pageRecord)) := by
  simp only [read]
  rw [readAux_spec k pages ds hdates htot hdec hk]

/-- Witness for C2 amended on `sampleIncrPages` with watermark 2022-01-02
(the second listed date). -/
theorem claim2_witness :
    read (some ⟨2022, 1, 2⟩) sampleIncrPages
      = (Event.acquire :: ((sampleIncrPages.take 2).map (fun p => Event.fetch p.url))
          ++ [Event.release],
         .ok ((sampleIncrPages.take 1).map pageRecord)) :=
  claim2_amended sampleIncrPages sampleDates 1 rfl (by decide) (by decide) (by decide)

@[simp] theorem countAcq_nil : countAcq [] = 0 := rfl

@[simp] theorem countRel_nil : countRel [] = 0 := rfl

@[simp] theorem countAcq_cons (e : Event) (tr : List Event) :
    countAcq (e :: tr) = countAcq tr + (if e = Event.acquire then 1 else 0) := by
  simp [countAcq, List.countP_cons]

@[simp] theorem countRel_cons (e : Event) (tr : List Event) :
    countRel (e :: tr) = countRel tr + (if e = Event.release then 1 else 0) := by
  simp [countRel, List.countP_cons]

@[simp] theorem countAcq_append (t1 t2 : List Event) :
    countAcq (t1 ++ t2) = countAcq t1 + countAcq t2 := by
  simp [countAcq, List.countP_append]

@[simp] theorem countRel_append (t1 t2 : List Event) :
    countRel (t1 ++ t2) = countRel t1 + countRel t2 := by
  simp [countRel, List.countP_append]

theorem readAux_counts (wm : Option Date) (ps : List IncrPage) :
    countAcq (readAux wm ps).1 = 0 ∧ countRel (readAux wm ps).1 = 0 := by
  induction ps with
  | nil => simp [readAux]
  | cons p ps ih =>
    unfold readAux
    cases hp : _parse_data p with
    | error e => simp
    | ok r =>
      cases wm with
      | none => simp
      | some w =>
        dsimp only
        by_cases hle : Date.le r.date w
        · rw [if_pos hle]; simp
        · rw [if_neg hle]
          simpa using ih

theorem read_counts (wm : Option Date) (pages : List IncrPage) :
    countAcq (read wm pages).1 = 1 ∧ countRel (read wm pages).1 = 1 := by
  have h := readAux_counts wm pages
  simp [read, h.1, h.2]

theorem readCompleteAux_counts (pageAt : String → CompletePage) (ls : List String) :
    countAcq (readCompleteAux pageAt ls).1 = 0 ∧ countRel (readCompleteAux pageAt ls).1 = 0 := by
  induction ls with
  | nil => simp [readCompleteAux]
  | cons l ls ih =>
    unfold readCompleteAux
    cases hp : _parse_data_complete (pageAt l) l with
    | error e => simp
    | ok r => simpa using ih

theorem read_complete_counts (env : Env) :
    countAcq (read_complete env).1 = 1 ∧ countRel (read_complete env).1 = 1 := by
  have h := readCompleteAux_counts env.completePage
    ((_get_links_complete env.completeIndex).take num_links_complete)
  simp [read_complete, h.1, h.2]

/-- C7 counterexample: a normally completing run of `export` acquires the
driver session twice — once in `read` and once in `read_complete` — not
"exactly once per `export()` invocation". -/
theorem claim7_counterexample :
    countAcq (exportRun envOK []).1 = 2 ∧
    (exportRun envOK []).2 = .ok (exportStore envOK []) :=
  ⟨rfl, rfl⟩

/-- C7 amended: each scraper call opens its own driver session: over any
run of `export`, acquisitions and releases balance on every exit path
(each `with` block releases its driver even on error), there are at most
two acquisitions — one if `read` fails, two once `read_complete` runs —
and a run that completes normally acquires exactly two sessions. -/
theorem claim7_amended (env : Env) (prior : List Record) :
    countAcq (exportRun env prior).1 = countRel (exportRun env prior).1 ∧
    1 ≤ countAcq (exportRun env prior).1 ∧
    countAcq (exportRun env prior).1 ≤ 2 ∧
    (∀ d, (exportRun env prior).2 = .ok d → countAcq (exportRun env prior).1 = 2) := by
  have hr := read_counts (maxDate prior) env.incrPages
  have hc := read_complete_counts env
  unfold exportRun
  cases hres1 : (read (maxDate prior) env.incrPages).2 with
  | error e =>
    refine ⟨?_, ?_, ?_, ?_⟩ <;> simp [hres1, hr.1, hr.2]
  | ok df0 =>
    cases hres2 : (read_complete env).2 with
    | error e =>
      refine ⟨?_, ?_, ?_, ?_⟩ <;> simp [hres1, hres2, hr.1, hr.2, hc.1, hc.2]
    | ok dfc0 =>
      refine ⟨?_, ?_, ?_, ?_⟩ <;> simp [hres1, hres2, hr.1, hr.2, hc.1, hc.2]

/-- Witness for C7 amended: on the concrete successful environment the
counts balance and equal two. -/
theorem claim7_witness :
    countAcq (exportRun envOK []).1 = countRel (exportRun envOK []).1 ∧
    countAcq (exportRun envOK []).1 = 2 := by
  have h := claim7_amended envOK []
  exact ⟨h.1, h.2.2.2 (exportStore envOK []) rfl⟩

theorem readCompleteAux_mapM (pageAt : String → CompletePage) (ls : List String) :
    (readCompleteAux pageAt ls).2
      = ls.mapM (fun l => _parse_data_complete (pageAt l) l) := by
  induction ls with
  | nil => rfl
  | cons l ls ih =>
    rw [List.mapM_cons]
    unfold readCompleteAux
    cases hp : _parse_data_complete (pageAt l) l with
    | error e => simp [hp, Bind.bind, Except.bind]
    | ok r =>
      rw [← ih]
      cases h2 : (readCompleteAux pageAt ls).2 with
      | error e2 => simp [hp, h2, Bind.bind, Except.bind, Except.map]
      | ok recs => simp [hp, h2, Bind.bind, Except.bind, Except.map, Pure.pure, Except.pure]

/-- C8: `read_complete` parses exactly the first `num_links_complete = 3`
links of the index whose anchor text matches the title pattern — no
watermark argument exists to consult — and every successfully parsed
record carries all four count fields, each computed by the two-magnitude
combination `_estimate_metric` from the page's captured numeral pairs. -/
theorem claim8_read_complete :
    (∀ env : Env, (read_complete env).2
      = ((_get_links_complete env.completeIndex).take num_links_complete).mapM
          (fun l => _parse_data_complete (env.completePage l) l)) ∧
    num_links_complete = 3 ∧
    (∀ (page : CompletePage) (url : String) (r : Record),
      _parse_data_complete page url = .ok r →
      ∃ month day tv1 tv2 pv1 pv2 pf1 pf2 tb1 tb2,
        page.doses = some (month, day, tv1, tv2) ∧
        page.people = some (pv1, pv2) ∧
        page.fully = some (pf1, pf2) ∧
        page.boosters = some (tb1, tb2) ∧
        r.total_vaccinations = some (_estimate_metric tv1 tv2) ∧
        r.people_vaccinated = some (_estimate_metric pv1 pv2) ∧
        r.people_fully_vaccinated = some (_estimate_metric pf1 pf2) ∧
        r.total_boosters = some (_estimate_metric tb1 tb2) ∧
        r.source_url = url) := by
  refine ⟨?_, rfl, ?_⟩
  · intro env
    simp only [read_complete]
    exact readCompleteAux_mapM env.completePage _
  · intro page url r h
    unfold _parse_data_complete at h
    repeat' split at h
    all_goals try cases h
    exact ⟨_, _, _, _, _, _, _, _, _, _, by assumption, by assumption, by assumption,
      by assumption, rfl, rfl, rfl, rfl, rfl⟩

/-- Witness for C8: the record parsed from `goodPage` decomposes into the
four combined metrics. -/
theorem claim8_witness :
    ∃ month day tv1 tv2 pv1 pv2 pf1 pf2 tb1 tb2,
      goodPage.doses = some (month, day, tv1, tv2) ∧
      goodPage.people = some (pv1, pv2) ∧
      goodPage.fully = some (pf1, pf2) ∧
      goodPage.boosters = some (tb1, tb2) ∧
      goodRec.total_vaccinations = some (_estimate_metric tv1 tv2) ∧
      goodRec.people_vaccinated = some (_estimate_metric pv1 pv2) ∧
      goodRec.people_fully_vaccinated = some (_estimate_metric pf1 pf2) ∧
      goodRec.total_boosters = some (_estimate_metric tb1 tb2) ∧
      goodRec.source_url = "cu" :=
  claim8_read_complete.2.2 goodPage "cu" goodRec parse_goodPage

end China
